import Mathlib

/-!
Verification of the typed record-access core of a Rust binding over a
foreign TableGen engine (`src/record.rs`).

The Rust file `record.rs` is embedded faithfully: each of its functions
becomes a Lean definition over an explicit model of the foreign engine
state (`Engine`), which stands for the data owned by the foreign record
keeper and reached through the FFI calls (`tableGenRecordGetValue`,
`tableGenRecordGetFirstValue`, `tableGenRecordValNext`, ...).

The sibling modules of the crate (`error.rs`, `init.rs`, `string_ref.rs`)
and the C wrapper are not part of the provided sources; their behaviour is
modelled from the specification and each such definition carries a doc
comment starting with `Modelled from the spec:`.
-/

namespace TblGen

/-- Source locations are opaque tokens into the foreign position table
(`SourceLocation::from_raw` wraps a raw pointer); we model the token as a
natural number. -/
abbrev SourceLocation := Nat

/-- Modelled from the spec: the closed tagged union `TypedInit` of
`init.rs` (not under the provided sources), one arm per foreign field-type
tag: Unset/Uninitialized, Bit, Bits, Int, String, Code, List, Dag, Def.
A Dag carries an operator record handle plus ordered arguments with
optional names; a Def carries a record handle. -/
inductive TypedInit where
  | unset
  | bit (b : Bool)
  | bits (bs : List Bool)
  | int (v : Int)
  | string (s : String)
  | code (s : String)
  | list (elems : List TypedInit)
  | dag (op : Nat) (args : List TypedInit) (argNames : List (Option String))
  | def_ (r : Nat)

/-- Modelled from the spec: the tag name of a `TypedInit` variant, used as
the `from` component of an `InvalidConversion` error (the tests show the
tag rendered as e.g. `Int`). -/
def TypedInit.tagName : TypedInit → String
  | .unset => "Unset"
  | .bit _ => "Bit"
  | .bits _ => "Bits"
  | .int _ => "Int"
  | .string _ => "String"
  | .code _ => "Code"
  | .list _ => "List"
  | .dag _ _ _ => "Dag"
  | .def_ _ => "Def"

/-- Modelled from the spec: the closed error taxonomy of `error.rs` (not
under the provided sources): `InvalidConversion{from,to}`,
`MissingValue(name)`, `InvalidEncoding`, `ParseError`,
`SourceLocationResolutionFailure`. -/
inductive TableGenError where
  | invalidConversion (fromTag : String) (toType : String)
  | missingValue (name : String)
  | invalidEncoding
  | parseError (message : String)
  | sourceLocationResolutionFailure
deriving DecidableEq

/-- Modelled from the spec: an `Error` is an error kind with an optional
attached source location, attachable and re-attachable after creation. -/
structure Error where
  kind : TableGenError
  loc : Option SourceLocation
deriving DecidableEq

/-- Modelled from the spec: `TableGenError::with_location` builds an
`Error` with the given location attached. -/
def TableGenError.withLocation (k : TableGenError) (l : SourceLocation) : Error :=
  ⟨k, some l⟩

/-- Modelled from the spec: `Error::set_location` re-attaches a location,
overwriting any previously attached one. -/
def Error.setLocation (e : Error) (l : SourceLocation) : Error :=
  ⟨e.kind, some l⟩

/-- A record handle: the Rust `Record` struct holds only the raw foreign
reference (plus a zero-sized lifetime marker). Equality derives from it. -/
structure Record where
  raw : Nat
deriving DecidableEq

/-- The derived `PartialEq` of the Rust `Record`: it compares the raw
foreign handles and nothing else. -/
def recordEq (r1 r2 : Record) : Bool :=
  r1.raw == r2.raw

/-- Modelled from the spec: conversion `TypedInit -> bool` succeeds only
for the Bit variant; a mismatch is `InvalidConversion{from: tag, to}` with
no location attached yet. -/
def TypedInit.toBit : TypedInit → Except Error Bool
  | .bit b => .ok b
  | i => .error ⟨.invalidConversion i.tagName "bool", none⟩

/-- Modelled from the spec: conversion `TypedInit -> Vec<bool>` succeeds
only for the Bits variant, preserving order. -/
def TypedInit.toBits : TypedInit → Except Error (List Bool)
  | .bits bs => .ok bs
  | i => .error ⟨.invalidConversion i.tagName "alloc::vec::Vec<bool>", none⟩

/-- Modelled from the spec: conversion `TypedInit -> i64` succeeds only
for the Int variant. -/
def TypedInit.toI64 : TypedInit → Except Error Int
  | .int v => .ok v
  | i => .error ⟨.invalidConversion i.tagName "i64", none⟩

/-- Modelled from the spec: conversion `TypedInit -> String` succeeds only
for the String and Code variants (both decode to text); the String form
copies the text. -/
def TypedInit.toHostString : TypedInit → Except Error String
  | .string s => .ok s
  | .code s => .ok s
  | i => .error ⟨.invalidConversion i.tagName "alloc::string::String", none⟩

/-- Modelled from the spec: conversion `TypedInit -> &str` succeeds only
for the String and Code variants; the borrowed form aliases the buffer. -/
def TypedInit.toStrRef : TypedInit → Except Error String
  | .string s => .ok s
  | .code s => .ok s
  | i => .error ⟨.invalidConversion i.tagName "&str", none⟩

/-- Modelled from the spec: conversion `TypedInit -> Record` succeeds only
for the Def variant, yielding the referenced record handle. -/
def TypedInit.toDef : TypedInit → Except Error Record
  | .def_ h => .ok ⟨h⟩
  | i => .error ⟨.invalidConversion i.tagName "tblgen::record::Record", none⟩

/-- Modelled from the spec: conversion `TypedInit -> ListInit` succeeds
only for the List variant, exposing the ordered elements. -/
def TypedInit.toListInit : TypedInit → Except Error (List TypedInit)
  | .list es => .ok es
  | i => .error ⟨.invalidConversion i.tagName "tblgen::init::ListInit", none⟩

/-- Modelled from the spec: conversion `TypedInit -> DagInit` succeeds
only for the Dag variant, exposing the operator and the argument pairs. -/
def TypedInit.toDagInit : TypedInit → Except Error (Nat × List TypedInit × List (Option String))
  | .dag op args names => .ok (op, args, names)
  | i => .error ⟨.invalidConversion i.tagName "tblgen::init::DagInit", none⟩

/-- One field of a record as owned by the foreign engine: its name, its
current typed value and its source location. -/
structure FieldData where
  name : String
  value : TypedInit
  loc : SourceLocation

/-- The foreign engine state reached through the FFI boundary: for each
record handle, its fields in declaration order, its static inheritance
chain (the transitive closure of declared superclasses, by class name),
its name bytes, its source location and its anonymity flag; plus the names
of all declared classes. -/
structure Engine where
  fields : Nat → List FieldData
  superclasses : Nat → List String
  classNames : List String
  nameBytes : Nat → List Nat
  recLoc : Nat → SourceLocation
  anonFlag : Nat → Bool

/-- Well-formedness of the engine state: every class name occurring in an
inheritance chain is the name of a declared class. -/
def Engine.WF (e : Engine) : Prop :=
  ∀ h c, c ∈ e.superclasses h → c ∈ e.classNames

/-- The FFI call `tableGenRecordGetValue`: foreign lookup of a field by
exact name match, returning a field pointer or null (modelled as
`Option`). -/
def tableGenRecordGetValue (e : Engine) (h : Nat) (name : String) : Option FieldData :=
  (e.fields h).find? (fun fd => fd.name == name)

/-- The FFI call `tableGenRecordGetFirstValue`: pointer to the first field
of the record, null when the record has no fields. Pointers into the field
array are modelled as indices. -/
def tableGenRecordGetFirstValue (e : Engine) (h : Nat) : Option Nat :=
  if (e.fields h).length = 0 then none else some 0

/-- The FFI call `tableGenRecordValNext`: advances a field pointer to the
next field of the record, null past the last field. Modelled from the
spec on the null pointer: the sequence terminates when the pointer is
null, so advancing null stays null. -/
def tableGenRecordValNext (e : Engine) (h : Nat) (cur : Option Nat) : Option Nat :=
  match cur with
  | none => none
  | some i => if i + 1 < (e.fields h).length then some (i + 1) else none

/-- `RecordValue`: a named field of a record, as materialised by
`RecordValue::from_raw`, which reads the field name and the typed value
through the FFI; its source location comes from
`tableGenRecordValGetLoc`. -/
structure RecordValue where
  name : String
  init : TypedInit
  loc : SourceLocation

/-- `RecordValue::from_raw`: reads name, typed value and location of a
field from its raw pointer. -/
def RecordValue.fromRaw (fd : FieldData) : RecordValue :=
  ⟨fd.name, fd.value, fd.loc⟩

/-- `Record::value`: looks the field up by name through
`tableGenRecordGetValue`; a null result becomes
`MissingValue(name)` annotated with the record's source location. -/
def Record.value (e : Engine) (r : Record) (name : String) : Except Error RecordValue :=
  match tableGenRecordGetValue e r.raw name with
  | some fd => .ok (RecordValue.fromRaw fd)
  | none => .error ((TableGenError.missingValue name).withLocation (e.recLoc r.raw))

/-- The `try_into!` instance for `bool` on `RecordValue`: converts the
field's init and on failure attaches the field's location. -/
def RecordValue.tryIntoBit (rv : RecordValue) : Except Error Bool :=
  (rv.init.toBit).mapError (fun er => er.setLocation rv.loc)

/-- The `try_into!` instance for `Vec<bool>` on `RecordValue`. -/
def RecordValue.tryIntoBits (rv : RecordValue) : Except Error (List Bool) :=
  (rv.init.toBits).mapError (fun er => er.setLocation rv.loc)

/-- The `try_into!` instance for `i64` on `RecordValue`. -/
def RecordValue.tryIntoI64 (rv : RecordValue) : Except Error Int :=
  (rv.init.toI64).mapError (fun er => er.setLocation rv.loc)

/-- The `try_into!` instance for `String` on `RecordValue`. -/
def RecordValue.tryIntoHostString (rv : RecordValue) : Except Error String :=
  (rv.init.toHostString).mapError (fun er => er.setLocation rv.loc)

/-- The `try_into!` instance for `&str` on `RecordValue`. -/
def RecordValue.tryIntoStrRef (rv : RecordValue) : Except Error String :=
  (rv.init.toStrRef).mapError (fun er => er.setLocation rv.loc)

/-- The `try_into!` instance for `Record` on `RecordValue`. -/
def RecordValue.tryIntoDef (rv : RecordValue) : Except Error Record :=
  (rv.init.toDef).mapError (fun er => er.setLocation rv.loc)

/-- The `try_into!` instance for `ListInit` on `RecordValue`. -/
def RecordValue.tryIntoListInit (rv : RecordValue) : Except Error (List TypedInit) :=
  (rv.init.toListInit).mapError (fun er => er.setLocation rv.loc)

/-- The `try_into!` instance for `DagInit` on `RecordValue`. -/
def RecordValue.tryIntoDagInit (rv : RecordValue) :
    Except Error (Nat × List TypedInit × List (Option String)) :=
  (rv.init.toDagInit).mapError (fun er => er.setLocation rv.loc)

/-- `Record::bit_value` as generated by the `record_value!` macro:
`self.value(name)?.try_into()`. -/
def Record.bit_value (e : Engine) (r : Record) (name : String) : Except Error Bool :=
  (r.value e name).bind RecordValue.tryIntoBit

/-- `Record::bits_value` as generated by the `record_value!` macro. -/
def Record.bits_value (e : Engine) (r : Record) (name : String) : Except Error (List Bool) :=
  (r.value e name).bind RecordValue.tryIntoBits

/-- `Record::int_value` as generated by the `record_value!` macro. -/
def Record.int_value (e : Engine) (r : Record) (name : String) : Except Error Int :=
  (r.value e name).bind RecordValue.tryIntoI64

/-- `Record::code_value` as generated by the `record_value!` macro
(target type `String`). -/
def Record.code_value (e : Engine) (r : Record) (name : String) : Except Error String :=
  (r.value e name).bind RecordValue.tryIntoHostString

/-- `Record::code_str_value` as generated by the `record_value!` macro
(target type `&str`). -/
def Record.code_str_value (e : Engine) (r : Record) (name : String) : Except Error String :=
  (r.value e name).bind RecordValue.tryIntoStrRef

/-- `Record::string_value` as generated by the `record_value!` macro
(target type `String`). -/
def Record.string_value (e : Engine) (r : Record) (name : String) : Except Error String :=
  (r.value e name).bind RecordValue.tryIntoHostString

/-- `Record::str_value` as generated by the `record_value!` macro
(target type `&str`). -/
def Record.str_value (e : Engine) (r : Record) (name : String) : Except Error String :=
  (r.value e name).bind RecordValue.tryIntoStrRef

/-- `Record::def_value` as generated by the `record_value!` macro. -/
def Record.def_value (e : Engine) (r : Record) (name : String) : Except Error Record :=
  (r.value e name).bind RecordValue.tryIntoDef

/-- `Record::list_value` as generated by the `record_value!` macro. -/
def Record.list_value (e : Engine) (r : Record) (name : String) :
    Except Error (List TypedInit) :=
  (r.value e name).bind RecordValue.tryIntoListInit

/-- `Record::dag_value` as generated by the `record_value!` macro. -/
def Record.dag_value (e : Engine) (r : Record) (name : String) :
    Except Error (Nat × List TypedInit × List (Option String)) :=
  (r.value e name).bind RecordValue.tryIntoDagInit

/-- `Record::anonymous`: the foreign anonymity flag. -/
def Record.anonymous (e : Engine) (r : Record) : Bool :=
  e.anonFlag r.raw

/-- `Record::subclass_of`: asks the foreign engine
(`tableGenRecordIsSubclassOf`) whether the record's static inheritance
chain contains a class of exactly the given name; a plain boolean, never
an error. -/
def Record.subclass_of (e : Engine) (r : Record) (class_ : String) : Bool :=
  (e.superclasses r.raw).contains class_

/-- Modelled from the spec: UTF-8 validity of a byte sequence, as checked
by the string reference adapter of `string_ref.rs` (not under the
provided sources), which validates lazily on conversion to `&str`.
Continuation bytes are `0x80..0xBF`; overlong forms, surrogates and code
points above `0x10FFFF` are rejected. -/
def validUtf8 : List Nat → Bool
  | [] => true
  | b :: rest =>
    if b ≤ 0x7F then validUtf8 rest
    else if 0xC2 ≤ b ∧ b ≤ 0xDF then
      match rest with
      | b2 :: r => (0x80 ≤ b2 && b2 ≤ 0xBF) && validUtf8 r
      | [] => false
    else if b = 0xE0 then
      match rest with
      | b2 :: b3 :: r => (0xA0 ≤ b2 && b2 ≤ 0xBF) && (0x80 ≤ b3 && b3 ≤ 0xBF) && validUtf8 r
      | _ => false
    else if (0xE1 ≤ b ∧ b ≤ 0xEC) ∨ b = 0xEE ∨ b = 0xEF then
      match rest with
      | b2 :: b3 :: r =>
        (0x80 ≤ b2 && b2 ≤ 0xBF) && (0x80 ≤ b3 && b3 ≤ 0xBF) && validUtf8 r
      | _ => false
    else if b = 0xED then
      match rest with
      | b2 :: b3 :: r => (0x80 ≤ b2 && b2 ≤ 0x9F) && (0x80 ≤ b3 && b3 ≤ 0xBF) && validUtf8 r
      | _ => false
    else if b = 0xF0 then
      match rest with
      | b2 :: b3 :: b4 :: r =>
        (0x90 ≤ b2 && b2 ≤ 0xBF) && (0x80 ≤ b3 && b3 ≤ 0xBF) &&
          (0x80 ≤ b4 && b4 ≤ 0xBF) && validUtf8 r
      | _ => false
    else if 0xF1 ≤ b ∧ b ≤ 0xF3 then
      match rest with
      | b2 :: b3 :: b4 :: r =>
        (0x80 ≤ b2 && b2 ≤ 0xBF) && (0x80 ≤ b3 && b3 ≤ 0xBF) &&
          (0x80 ≤ b4 && b4 ≤ 0xBF) && validUtf8 r
      | _ => false
    else if b = 0xF4 then
      match rest with
      | b2 :: b3 :: b4 :: r =>
        (0x80 ≤ b2 && b2 ≤ 0x8F) && (0x80 ≤ b3 && b3 ≤ 0xBF) &&
          (0x80 ≤ b4 && b4 ≤ 0xBF) && validUtf8 r
      | _ => false
    else false

/-- Modelled from the spec: the `StringRef -> &str` conversion of
`string_ref.rs`: the borrowed string is the same byte span, produced only
when the bytes are valid UTF-8, otherwise `InvalidEncoding` with no
location. -/
def strFromUtf8 (bs : List Nat) : Except TableGenError (List Nat) :=
  if validUtf8 bs then .ok bs else .error .invalidEncoding

/-- `Record::name`: reads the foreign name bytes, converts them to a
string slice, and annotates any encoding failure with the record's
source location. -/
def Record.name (e : Engine) (r : Record) : Except Error (List Nat) :=
  (strFromUtf8 (e.nameBytes r.raw)).mapError
    (fun k => k.withLocation (e.recLoc r.raw))

/-- `RecordValueIter`: the raw record handle plus the current field
pointer. -/
structure RecordValueIter where
  record : Nat
  current : Option Nat

/-- `RecordValueIter::new`: starts at the foreign first-field pointer. -/
def RecordValueIter.new (e : Engine) (r : Record) : RecordValueIter :=
  ⟨r.raw, tableGenRecordGetFirstValue e r.raw⟩

/-- `Record::values`: a fresh iterator over the record's fields. -/
def Record.values (e : Engine) (r : Record) : RecordValueIter :=
  RecordValueIter.new e r

/-- `Iterator::next` for `RecordValueIter`: yields the field at the
current pointer (nothing when it is null), then unconditionally advances
the pointer through `tableGenRecordValNext`. -/
def RecordValueIter.next (e : Engine) (it : RecordValueIter) :
    Option RecordValue × RecordValueIter :=
  let res :=
    match it.current with
    | none => none
    | some i => ((e.fields it.record)[i]?).map RecordValue.fromRaw
  (res, ⟨it.record, tableGenRecordValNext e it.record it.current⟩)

/-- Runs `next` the given number of times, collecting each call's
output. -/
def runIter (e : Engine) (it : RecordValueIter) : Nat → List (Option RecordValue)
  | 0 => []
  | n + 1 =>
    let step := RecordValueIter.next e it
    step.1 :: runIter e step.2 n

/-- Modelled from the spec: the base display message of each error kind,
as rendered by the `Display` implementation of `error.rs` (not under the
provided sources); the tests show the invalid-conversion form. -/
def TableGenError.message : TableGenError → String
  | .invalidConversion f t => "invalid conversion from " ++ f ++ " to " ++ t
  | .missingValue n => "missing value " ++ n
  | .invalidEncoding => "invalid UTF-8 encoding"
  | .parseError m => m
  | .sourceLocationResolutionFailure => "invalid source location"

/-- Modelled from the spec: the keeper's retained source buffers, able to
resolve an opaque location into a human-readable pointer (source line
plus a caret) or to fail when the location does not belong to them. -/
structure SourceInfo where
  resolve : SourceLocation → Option String

/-- Modelled from the spec: rendering an error without attached source
information prints the base message only. -/
def Error.render (e : Error) : String :=
  e.kind.message

/-- Modelled from the spec: rendering an error with attached source
information resolves the location into a human-readable pointer appended
after the message; when the resolution fails the base message is still
printed, followed by a distinct diagnostic about the failure (the tests
show `failed to print source information: invalid source location`). -/
def Error.renderWithInfo (e : Error) (si : SourceInfo) : String :=
  match e.loc with
  | none => e.kind.message
  | some l =>
    match si.resolve l with
    | some ptr => "error: " ++ e.kind.message ++ "\n" ++ ptr
    | none =>
      e.kind.message ++ "\nfailed to print source information: " ++
        TableGenError.sourceLocationResolutionFailure.message

/-- A concrete engine state used to exercise the operations: record 0 has
an Int field `size = 42` and a String field `n = "hello"`, inherits from
classes `A` and `B`, and is named `A` (byte 65); other handles have no
fields and carry a non-UTF-8 name byte. -/
def sampleEngine : Engine where
  fields := fun h =>
    if h = 0 then
      [⟨"size", .int 42, 10⟩, ⟨"n", .string "hello", 11⟩]
    else []
  superclasses := fun h => if h = 0 then ["A", "B"] else []
  classNames := ["A", "B", "C"]
  nameBytes := fun h => if h = 0 then [65] else [255]
  recLoc := fun h => h + 100
  anonFlag := fun _ => false

/-- The sample engine is well formed: every inherited class name is
declared. -/
theorem sampleEngine_wf : Engine.WF sampleEngine := by
  intro h c hc
  by_cases h0 : h = 0
  · simp_all [sampleEngine]
    tauto
  · simp_all [sampleEngine]

/-- A concrete engine in which two distinct handles expose identical
structure (fields, inheritance, name, anonymity). -/
def pairEngine : Engine where
  fields := fun _ => [⟨"size", .int 42, 10⟩]
  superclasses := fun _ => ["A"]
  classNames := ["A"]
  nameBytes := fun _ => [65]
  recLoc := fun _ => 0
  anonFlag := fun _ => false

/-- Structural identity of two records under an engine: same fields, same
inheritance chain, same name bytes, same anonymity flag. -/
def structurallyEqual (e : Engine) (r1 r2 : Record) : Prop :=
  e.fields r1.raw = e.fields r2.raw ∧
  e.superclasses r1.raw = e.superclasses r2.raw ∧
  e.nameBytes r1.raw = e.nameBytes r2.raw ∧
  e.anonFlag r1.raw = e.anonFlag r2.raw

/-- An iterator whose current field pointer is null yields nothing on
every subsequent call: advancing the null pointer stays null. -/
theorem runIter_current_none (e : Engine) (h : Nat) :
    ∀ n, runIter e ⟨h, none⟩ n = List.replicate n none := by
  intro n
  induction n with
  | zero => rfl
  | succ n ih =>
    simp [runIter, RecordValueIter.next, tableGenRecordValNext, ih, List.replicate]

/-- Running an iterator positioned at index `i` of the field list yields
the remaining fields in order, followed by nothing once exhausted. -/
theorem runIter_some (e : Engine) (h : Nat) :
    ∀ (n i : Nat), i < (e.fields h).length →
      runIter e ⟨h, some i⟩ n =
        (((e.fields h).drop i).map (fun fd => some (RecordValue.fromRaw fd))).take n ++
          List.replicate (n - ((e.fields h).length - i)) none := by
  intro n
  induction n with
  | zero =>
    intro i hi
    simp [runIter]
  | succ n ih =>
    intro i hi
    have hdrop : (e.fields h).drop i = (e.fields h)[i] :: (e.fields h).drop (i + 1) :=
      List.drop_eq_getElem_cons hi
    by_cases hlt : i + 1 < (e.fields h).length
    · have harith : n + 1 - ((e.fields h).length - i) =
          n - ((e.fields h).length - (i + 1)) := by omega
      simp only [runIter, RecordValueIter.next, tableGenRecordValNext, hlt, if_pos]
      rw [ih (i + 1) hlt, hdrop]
      simp only [List.map_cons, List.take_succ_cons, List.getElem?_eq_getElem hi,
        Option.map_some, harith]
      rfl
    · have hi1 : i + 1 = (e.fields h).length := by omega
      have harith : n + 1 - ((e.fields h).length - i) = n := by omega
      have hdroplen : (e.fields h).drop (i + 1) = [] := by
        apply List.drop_eq_nil_of_le
        omega
      simp only [runIter, RecordValueIter.next, tableGenRecordValNext, hlt, if_neg,
        not_false_iff]
      rw [runIter_current_none, hdrop, hdroplen]
      simp only [List.map_cons, List.map_nil, List.take_succ_cons, List.take_nil,
        List.getElem?_eq_getElem hi, Option.map_some, harith]
      rfl

/-- C9: the string and code accessor families are extensionally
identical: `string_value` equals `code_value` and `str_value` equals
`code_str_value` on every record and field name, both being `value(n)`
followed by the same String (respectively `&str`) conversion. -/
theorem string_code_accessors_agree (e : Engine) (r : Record) (n : String) :
    Record.string_value e r n = Record.code_value e r n ∧
    Record.str_value e r n = Record.code_str_value e r n :=
  ⟨rfl, rfl⟩

/-- C8: equality of `Record` handles is reference identity of the raw
foreign handle; moreover there is an engine with two structurally
identical records on distinct handles that compare unequal. -/
theorem record_eq_is_handle_identity :
    (∀ r1 r2 : Record, recordEq r1 r2 = true ↔ r1.raw = r2.raw) ∧
    ∃ (e : Engine) (r1 r2 : Record),
      structurallyEqual e r1 r2 ∧ recordEq r1 r2 = false := by
  constructor
  · intro r1 r2
    simp [recordEq]
  · exact ⟨pairEngine, ⟨1⟩, ⟨2⟩, ⟨rfl, rfl, rfl, rfl⟩, rfl⟩

/-- C5: `subclass_of` is true exactly when the record's static
inheritance chain contains a class of that exact name, and on a
well-formed engine it returns false — never an error — for a name that is
not a declared class. -/
theorem subclass_of_chain_membership (e : Engine) (r : Record) (c : String) :
    (Record.subclass_of e r c = true ↔ c ∈ e.superclasses r.raw) ∧
    (Engine.WF e → c ∉ e.classNames → Record.subclass_of e r c = false) := by
  constructor
  · simp [Record.subclass_of]
  · intro hwf hc
    rcases hmem : Record.subclass_of e r c with _ | _
    · rfl
    · exact absurd (hwf r.raw c (by simpa [Record.subclass_of] using hmem)) hc

/-- Witness for C5 on the sample engine: record 0 derives from `A`, and
`subclass_of` on the undeclared name `D` is false. -/
theorem subclass_of_chain_membership_witness :
    Record.subclass_of sampleEngine ⟨0⟩ "A" = true ∧
    Record.subclass_of sampleEngine ⟨0⟩ "D" = false :=
  ⟨(subclass_of_chain_membership sampleEngine ⟨0⟩ "A").1.mpr (by simp [sampleEngine]),
    (subclass_of_chain_membership sampleEngine ⟨0⟩ "D").2 sampleEngine_wf
      (by simp [sampleEngine])⟩

/-- C7: `Record::name` returns the record's name when the foreign name
bytes are valid UTF-8, and otherwise an encoding error annotated with the
record's source location. -/
theorem record_name_utf8 (e : Engine) (r : Record) :
    (validUtf8 (e.nameBytes r.raw) = true →
      Record.name e r = .ok (e.nameBytes r.raw)) ∧
    (validUtf8 (e.nameBytes r.raw) = false →
      Record.name e r = .error ⟨.invalidEncoding, some (e.recLoc r.raw)⟩) := by
  constructor
  · intro hv
    simp [Record.name, strFromUtf8, hv, Except.mapError]
  · intro hv
    simp [Record.name, strFromUtf8, hv, Except.mapError, TableGenError.withLocation]

/-- Witness for C7 on the sample engine: record 0 has the valid name byte
65, record 1 the invalid byte 255 (its location is 101). -/
theorem record_name_utf8_witness :
    Record.name sampleEngine ⟨0⟩ = .ok [65] ∧
    Record.name sampleEngine ⟨1⟩ = .error ⟨.invalidEncoding, some 101⟩ :=
  ⟨(record_name_utf8 sampleEngine ⟨0⟩).1 rfl,
    (record_name_utf8 sampleEngine ⟨1⟩).2 rfl⟩

/-- C1: on a field present with an Int-tagged value `v`, `int_value`
returns `Ok v` and `value` returns a `RecordValue` whose init is the Int
variant carrying `v`; and every typed convenience accessor is `value`
followed by the matching conversion. -/
theorem typed_accessor_roundtrip_int (e : Engine) (r : Record) (f : String)
    (fd : FieldData) (v : Int)
    (hf : tableGenRecordGetValue e r.raw f = some fd)
    (hv : fd.value = TypedInit.int v) :
    Record.int_value e r f = .ok v ∧
    (∃ rv, Record.value e r f = .ok rv ∧ rv.init = .int v) ∧
    (∀ nm : String,
      Record.bit_value e r nm = (Record.value e r nm).bind RecordValue.tryIntoBit ∧
      Record.bits_value e r nm = (Record.value e r nm).bind RecordValue.tryIntoBits ∧
      Record.int_value e r nm = (Record.value e r nm).bind RecordValue.tryIntoI64 ∧
      Record.string_value e r nm = (Record.value e r nm).bind RecordValue.tryIntoHostString ∧
      Record.str_value e r nm = (Record.value e r nm).bind RecordValue.tryIntoStrRef ∧
      Record.code_value e r nm = (Record.value e r nm).bind RecordValue.tryIntoHostString ∧
      Record.code_str_value e r nm = (Record.value e r nm).bind RecordValue.tryIntoStrRef ∧
      Record.def_value e r nm = (Record.value e r nm).bind RecordValue.tryIntoDef ∧
      Record.list_value e r nm = (Record.value e r nm).bind RecordValue.tryIntoListInit ∧
      Record.dag_value e r nm = (Record.value e r nm).bind RecordValue.tryIntoDagInit) := by
  have hval : Record.value e r f = .ok (RecordValue.fromRaw fd) := by
    simp [Record.value, hf]
  refine ⟨?_, ⟨RecordValue.fromRaw fd, hval, by simp [RecordValue.fromRaw, hv]⟩, ?_⟩
  · simp [Record.int_value, hval, RecordValue.tryIntoI64, RecordValue.fromRaw, hv,
      TypedInit.toI64, Except.mapError, Except.bind]
  · intro nm
    exact ⟨rfl, rfl, rfl, rfl, rfl, rfl, rfl, rfl, rfl, rfl⟩

/-- Witness for C1 on the sample engine: field `size` of record 0 holds
Int 42. -/
theorem typed_accessor_roundtrip_int_witness :
    Record.int_value sampleEngine ⟨0⟩ "size" = .ok 42 :=
  (typed_accessor_roundtrip_int sampleEngine ⟨0⟩ "size" ⟨"size", .int 42, 10⟩ 42
    rfl rfl).1

/-- C2: on an absent field name, `value` fails with `MissingValue`
annotated with the record's source location, and every typed convenience
accessor propagates exactly that error, never a conversion error. -/
theorem missing_field_error (e : Engine) (r : Record) (g : String)
    (hg : tableGenRecordGetValue e r.raw g = none) :
    Record.value e r g = .error ⟨.missingValue g, some (e.recLoc r.raw)⟩ ∧
    Record.bit_value e r g = .error ⟨.missingValue g, some (e.recLoc r.raw)⟩ ∧
    Record.bits_value e r g = .error ⟨.missingValue g, some (e.recLoc r.raw)⟩ ∧
    Record.int_value e r g = .error ⟨.missingValue g, some (e.recLoc r.raw)⟩ ∧
    Record.string_value e r g = .error ⟨.missingValue g, some (e.recLoc r.raw)⟩ ∧
    Record.str_value e r g = .error ⟨.missingValue g, some (e.recLoc r.raw)⟩ ∧
    Record.code_value e r g = .error ⟨.missingValue g, some (e.recLoc r.raw)⟩ ∧
    Record.code_str_value e r g = .error ⟨.missingValue g, some (e.recLoc r.raw)⟩ ∧
    Record.def_value e r g = .error ⟨.missingValue g, some (e.recLoc r.raw)⟩ ∧
    Record.list_value e r g = .error ⟨.missingValue g, some (e.recLoc r.raw)⟩ ∧
    Record.dag_value e r g = .error ⟨.missingValue g, some (e.recLoc r.raw)⟩ := by
  have hval : Record.value e r g =
      .error ⟨.missingValue g, some (e.recLoc r.raw)⟩ := by
    simp [Record.value, hg, TableGenError.withLocation]
  refine ⟨hval, ?_, ?_, ?_, ?_, ?_, ?_, ?_, ?_, ?_, ?_⟩ <;>
    simp [Record.bit_value, Record.bits_value, Record.int_value, Record.string_value,
      Record.str_value, Record.code_value, Record.code_str_value, Record.def_value,
      Record.list_value, Record.dag_value, hval, Except.bind]

/-- Witness for C2 on the sample engine: record 0 has no field named
`absent`; its record location is 100. -/
theorem missing_field_error_witness :
    Record.value sampleEngine ⟨0⟩ "absent" =
      .error ⟨.missingValue "absent", some 100⟩ ∧
    Record.int_value sampleEngine ⟨0⟩ "absent" =
      .error ⟨.missingValue "absent", some 100⟩ :=
  ⟨(missing_field_error sampleEngine ⟨0⟩ "absent" rfl).1,
    (missing_field_error sampleEngine ⟨0⟩ "absent" rfl).2.2.2.1⟩

/-- C3: on a field whose actual variant tag does not match the accessor's
requested host type, each typed accessor fails with `InvalidConversion`
carrying the actual tag as its `from` component and the requested host
type name as its `to` component (located at the field). -/
theorem mismatched_conversion_error (e : Engine) (r : Record) (f : String)
    (fd : FieldData)
    (hf : tableGenRecordGetValue e r.raw f = some fd) :
    (fd.value.tagName ≠ "Bit" →
      Record.bit_value e r f =
        .error ⟨.invalidConversion fd.value.tagName "bool", some fd.loc⟩) ∧
    (fd.value.tagName ≠ "Bits" →
      Record.bits_value e r f =
        .error ⟨.invalidConversion fd.value.tagName "alloc::vec::Vec<bool>", some fd.loc⟩) ∧
    (fd.value.tagName ≠ "Int" →
      Record.int_value e r f =
        .error ⟨.invalidConversion fd.value.tagName "i64", some fd.loc⟩) ∧
    (fd.value.tagName ≠ "String" → fd.value.tagName ≠ "Code" →
      Record.string_value e r f =
        .error ⟨.invalidConversion fd.value.tagName "alloc::string::String", some fd.loc⟩) ∧
    (fd.value.tagName ≠ "String" → fd.value.tagName ≠ "Code" →
      Record.code_value e r f =
        .error ⟨.invalidConversion fd.value.tagName "alloc::string::String", some fd.loc⟩) ∧
    (fd.value.tagName ≠ "String" → fd.value.tagName ≠ "Code" →
      Record.str_value e r f =
        .error ⟨.invalidConversion fd.value.tagName "&str", some fd.loc⟩) ∧
    (fd.value.tagName ≠ "String" → fd.value.tagName ≠ "Code" →
      Record.code_str_value e r f =
        .error ⟨.invalidConversion fd.value.tagName "&str", some fd.loc⟩) ∧
    (fd.value.tagName ≠ "Def" →
      Record.def_value e r f =
        .error ⟨.invalidConversion fd.value.tagName "tblgen::record::Record", some fd.loc⟩) ∧
    (fd.value.tagName ≠ "List" →
      Record.list_value e r f =
        .error ⟨.invalidConversion fd.value.tagName "tblgen::init::ListInit", some fd.loc⟩) ∧
    (fd.value.tagName ≠ "Dag" →
      Record.dag_value e r f =
        .error ⟨.invalidConversion fd.value.tagName "tblgen::init::DagInit", some fd.loc⟩) := by
  have hval : Record.value e r f = .ok (RecordValue.fromRaw fd) := by
    simp [Record.value, hf]
  refine ⟨?_, ?_, ?_, ?_, ?_, ?_, ?_, ?_, ?_, ?_⟩ <;>
    intro h <;>
    cases hv : fd.value <;>
    simp_all [Record.bit_value, Record.bits_value, Record.int_value, Record.string_value,
      Record.str_value, Record.code_value, Record.code_str_value, Record.def_value,
      Record.list_value, Record.dag_value, RecordValue.tryIntoBit, RecordValue.tryIntoBits,
      RecordValue.tryIntoI64, RecordValue.tryIntoHostString, RecordValue.tryIntoStrRef,
      RecordValue.tryIntoDef, RecordValue.tryIntoListInit, RecordValue.tryIntoDagInit,
      RecordValue.fromRaw, TypedInit.toBit, TypedInit.toBits, TypedInit.toI64,
      TypedInit.toHostString, TypedInit.toStrRef, TypedInit.toDef, TypedInit.toListInit,
      TypedInit.toDagInit, TypedInit.tagName, Except.mapError, Except.bind,
      Error.setLocation]

/-- Witness for C3 on the sample engine, mirroring the repository's own
test: asking for a `String` on the Int-valued field `size` yields the
conversion error from `Int` to `alloc::string::String`, at the field's
location 10. -/
theorem mismatched_conversion_error_witness :
    Record.string_value sampleEngine ⟨0⟩ "size" =
      .error ⟨.invalidConversion "Int" "alloc::string::String", some 10⟩ :=
  (mismatched_conversion_error sampleEngine ⟨0⟩ "size" ⟨"size", .int 42, 10⟩
    rfl).2.2.2.1 (by decide) (by decide)

/-- C4: the fresh iterator returned by `values` yields exactly the
record's fields, in declaration order, and then yields nothing: running
`next` any number of times produces the field list (as `some` items)
truncated to that many calls, padded with `none` once the foreign
next-field pointer has become null. Since `values` rebuilds the iterator
from the record, the traversal is repeatable even though any single
iterator is single-pass. -/
theorem values_iteration_complete (e : Engine) (r : Record) (n : Nat) :
    runIter e (Record.values e r) n =
      ((e.fields r.raw).map (fun fd => some (RecordValue.fromRaw fd))).take n ++
        List.replicate (n - (e.fields r.raw).length) none := by
  unfold Record.values RecordValueIter.new tableGenRecordGetFirstValue
  by_cases h0 : (e.fields r.raw).length = 0
  · rw [if_pos h0, runIter_current_none]
    have hnil : e.fields r.raw = [] := List.length_eq_zero.mp h0
    simp [hnil]
  · rw [if_neg h0, runIter_some e r.raw n 0 (Nat.pos_of_ne_zero h0)]
    simp

/-- C10: once a call to `next` has returned nothing, every subsequent
call also returns nothing: although `next` still advances by calling the
foreign next-field function, advancing from that state leaves the current
field pointer null, so the iterator stays exhausted. -/
theorem iterator_stays_exhausted (e : Engine) (it : RecordValueIter) (k : Nat)
    (h : (RecordValueIter.next e it).1 = none) :
    runIter e (RecordValueIter.next e it).2 k = List.replicate k none := by
  have hcur : tableGenRecordValNext e it.record it.current = none := by
    cases hc : it.current with
    | none => rfl
    | some i =>
      have hmap : ((e.fields it.record)[i]?).map RecordValue.fromRaw = none := by
        simpa [RecordValueIter.next, hc] using h
      have hge : (e.fields it.record).length ≤ i := by
        by_contra hlt
        push_neg at hlt
        simp [List.getElem?_eq_getElem hlt] at hmap
      have hnlt : ¬ (i + 1 < (e.fields it.record).length) := by omega
      simp [tableGenRecordValNext, hnlt]
  show runIter e ⟨it.record, tableGenRecordValNext e it.record it.current⟩ k = _
  rw [hcur]
  exact runIter_current_none e it.record k

/-- Witness for C10 on the sample engine: an exhausted iterator over
record 0 keeps yielding nothing for three further calls. -/
theorem iterator_stays_exhausted_witness :
    runIter sampleEngine (RecordValueIter.next sampleEngine ⟨0, none⟩).2 3 =
      List.replicate 3 none :=
  iterator_stays_exhausted sampleEngine ⟨0, none⟩ 3 rfl

/-- C6: rendering an error without attached source information prints the
base message only; rendering it with source information that cannot
resolve the attached location prints the base message followed by the
distinct resolution-failure diagnostic — the original error text is never
dropped. -/
theorem error_render_preserves_message (er : Error) (si : SourceInfo) :
    Error.render er = er.kind.message ∧
    (∀ l, er.loc = some l → si.resolve l = none →
      Error.renderWithInfo er si =
        er.kind.message ++
          "\nfailed to print source information: invalid source location") := by
  refine ⟨rfl, ?_⟩
  intro l hl hr
  simp only [Error.renderWithInfo, hl, hr]
  rw [String.append_assoc]
  rfl

/-- Witness for C6: the conversion error from the repository's own test,
rendered bare and against a buffer that resolves nothing. -/
theorem error_render_preserves_message_witness :
    Error.render ⟨.invalidConversion "Int" "alloc::string::String", some 5⟩ =
      "invalid conversion from Int to alloc::string::String" ∧
    Error.renderWithInfo ⟨.invalidConversion "Int" "alloc::string::String", some 5⟩
        ⟨fun _ => none⟩ =
      "invalid conversion from Int to alloc::string::String\nfailed to print source information: invalid source location" := by
  have h := error_render_preserves_message
    ⟨.invalidConversion "Int" "alloc::string::String", some 5⟩ ⟨fun _ => none⟩
  exact ⟨h.1, (h.2 5 rfl rfl).trans rfl⟩

end TblGen
